import Mathlib

/-!
Shallow embedding of the client-side realtime document synchronization
library vendored in this repository (lib0 codec, y-protocols awareness,
Hocuspocus provider / websocket manager), together with proofs settling
the frozen claims about it.

Machine numbers are modelled as `Nat`.  All quantities handled by the
claims stay below `2 ^ 53`, where IEEE-754 double arithmetic (used by the
JavaScript source) is exact, so `Nat` is a faithful model on every input
exercised here.  JavaScript's `x & 127` equals `x % 128` and
`Math.floor(x / 128)` equals `x / 128` on naturals in that range.
-/

namespace Hocuspocus

/-- Byte buffers are lists of naturals (each below 256 in practice). -/
abbrev Bytes := List Nat

/-! ## Binary codec (`lib0` encoding / decoding)

The source `Encoder` is an append-only growable byte buffer whose
`toUint8Array` returns the written bytes in order; we model it directly
as the list of written bytes. -/

/-- `writeVarUint` from the source: 7-bit little-endian groups with the
high bit of each byte as continuation bit.  The `while (num > BITS7)`
loop becomes recursion on `num`, the encoder is the accumulator:
`write(encoder, BIT8 | (BITS7 & num)); num = floor(num / 128)`. -/
def writeVarUint (encoder : Bytes) (num : Nat) : Bytes :=
  if h : num > 127 then
    writeVarUint (encoder ++ [128 + num % 128]) (num / 128)
  else
    encoder ++ [num % 128]
termination_by num
decreasing_by exact Nat.div_lt_self (by omega) (by omega)

/-- The two decoder failure modes of the source module. -/
inductive DecodeError where
  | unexpectedEndOfArray
  | integerOutOfRange
deriving DecidableEq, Repr

/-- `Number.MAX_SAFE_INTEGER`. -/
def MAX_SAFE_INTEGER : Nat := 2 ^ 53 - 1

/-- Loop body of `readVarUint`: the decoder's remaining bytes are the
list argument; `num` and `mult` are the accumulators of the source's
`while (decoder.pos < len)` loop.  The continuation test `r < BIT8`
happens before the `num > MAX_SAFE_INTEGER` range check, exactly as in
the source (`num + (r & BITS7) * mult` is inlined at its three uses). -/
def readVarUintLoop : Bytes → Nat → Nat → Except DecodeError (Nat × Bytes)
  | [], _, _ => .error .unexpectedEndOfArray
  | r :: rest, num, mult =>
    if r < 128 then
      .ok (num + (r % 128) * mult, rest)
    else if num + (r % 128) * mult > MAX_SAFE_INTEGER then
      .error .integerOutOfRange
    else
      readVarUintLoop rest (num + (r % 128) * mult) (mult * 128)

/-- `readVarUint` on a fresh decoder over `arr`: returns the decoded
integer together with the bytes left after the cursor. -/
def readVarUint (arr : Bytes) : Except DecodeError (Nat × Bytes) :=
  readVarUintLoop arr 0 1

/-- `writeVarUint8Array`: a varuint length followed by the raw bytes. -/
def writeVarUint8Array (encoder : Bytes) (data : Bytes) : Bytes :=
  writeVarUint encoder data.length ++ data

/-- `writeVarString` on a name already given as its UTF-8 bytes: the
length prefix followed by the bytes (document names are treated as
opaque byte strings throughout the model). -/
def writeVarStringBytes (encoder : Bytes) (s : Bytes) : Bytes :=
  writeVarUint encoder s.length ++ s

/-! ## JavaScript `Map` model

Insertion-ordered association lists with unique keys, mirroring the
semantics of the ES `Map` used by the awareness store: `set` keeps the
position of an existing key, `delete` removes it. -/

/-- `Map.prototype.get`. -/
def mapGet {α : Type} (m : List (Nat × α)) (k : Nat) : Option α :=
  (m.find? (fun p => p.1 == k)).map (·.2)

/-- `Map.prototype.has`. -/
def mapHas {α : Type} (m : List (Nat × α)) (k : Nat) : Bool :=
  (mapGet m k).isSome

/-- `Map.prototype.set`: replace in place, or append a new entry. -/
def mapSet {α : Type} : List (Nat × α) → Nat → α → List (Nat × α)
  | [], k, v => [(k, v)]
  | p :: rest, k, v => if p.1 = k then (k, v) :: rest else p :: mapSet rest k v

/-- `Map.prototype.delete`. -/
def mapDel {α : Type} : List (Nat × α) → Nat → List (Nat × α)
  | [], _ => []
  | p :: rest, k => if p.1 = k then rest else p :: mapDel rest k

/-! ## Awareness store (`y-protocols` awareness)

The per-client state values (`JSON.parse` of the wire string) are an
arbitrary type `St` with decidable equality, modelling `equalityDeep`;
`none` stands for JavaScript `null`.  The wire decoding of an update is
the list of `(clientID, clock, state)` entries it carries.  Wall-clock
reads (`getUnixTime`) become explicit `now` / `timestamp` arguments. -/

/-- Fixed staleness window of the awareness module. -/
def outdatedTimeout : Nat := 30000

/-- Per-client bookkeeping (`MetaClientState`). -/
structure MetaClientState where
  clock : Nat
  lastUpdated : Nat
deriving DecidableEq, Repr

/-- The `Awareness` instance state: local client id plus the `states`
and `meta` maps. -/
structure Awareness (St : Type) where
  clientID : Nat
  states : List (Nat × St)
  meta : List (Nat × MetaClientState)
deriving Repr

/-- Payload of a `change` / `update` event. -/
structure ChangeSet where
  added : List Nat
  updated : List Nat
  removed : List Nat
deriving DecidableEq, Repr

/-- Events emitted by the awareness store. -/
inductive AwEvent where
  | change (cs : ChangeSet)
  | update (cs : ChangeSet)
deriving DecidableEq, Repr

/-- Observation used for C7: does an event report client `c` removed
in a `change` notification? -/
def changeRemovedFor (c : Nat) : AwEvent → Bool
  | .change cs => decide (c ∈ cs.removed)
  | .update _ => false

/-- `getLocalState`: `this.states.get(this.clientID) || null`. -/
def getLocalState {St : Type} (aw : Awareness St) : Option St :=
  mapGet aw.states aw.clientID

/-- `setLocalState` with the `getUnixTime()` value passed explicitly. -/
def setLocalState {St : Type} [DecidableEq St] (aw : Awareness St)
    (state : Option St) (now : Nat) : Awareness St × List AwEvent :=
  let clientID := aw.clientID
  let clock := match mapGet aw.meta clientID with
    | none => 0
    | some m => m.clock + 1
  let prevState := mapGet aw.states clientID
  let states' := match state with
    | none => mapDel aw.states clientID
    | some s => mapSet aw.states clientID s
  let meta' := mapSet aw.meta clientID ⟨clock, now⟩
  let removed : List Nat := if state = none then [clientID] else []
  let added : List Nat := if state ≠ none ∧ prevState = none then [clientID] else []
  let updated : List Nat := if state ≠ none ∧ prevState ≠ none then [clientID] else []
  let filteredUpdated : List Nat :=
    if state ≠ none ∧ prevState ≠ none ∧ prevState ≠ state then [clientID] else []
  let events :=
    (if added ≠ [] ∨ filteredUpdated ≠ [] ∨ removed ≠ [] then
        [AwEvent.change ⟨added, filteredUpdated, removed⟩] else [])
    ++ [AwEvent.update ⟨added, updated, removed⟩]
  ({ aw with states := states', meta := meta' }, events)

/-- Accumulator of the loop inside `removeAwarenessStates`. -/
structure RemoveAcc (St : Type) where
  aw : Awareness St
  removed : List Nat

/-- One iteration of the `removeAwarenessStates` loop. -/
def removeAwarenessStep {St : Type} (now : Nat) (acc : RemoveAcc St)
    (clientID : Nat) : RemoveAcc St :=
  if mapHas acc.aw.states clientID then
    let states' := mapDel acc.aw.states clientID
    let meta' :=
      if clientID = acc.aw.clientID then
        match mapGet acc.aw.meta clientID with
        | some curMeta => mapSet acc.aw.meta clientID ⟨curMeta.clock + 1, now⟩
        | none => acc.aw.meta
      else acc.aw.meta
    { aw := { acc.aw with states := states', meta := meta' },
      removed := acc.removed ++ [clientID] }
  else acc

/-- `removeAwarenessStates`: delete the listed clients' states (bumping
the local clock if the local client is among them) and emit one
`change` plus one `update` event when anything was removed. -/
def removeAwarenessStates {St : Type} (aw : Awareness St) (clients : List Nat)
    (now : Nat) : Awareness St × List AwEvent :=
  let acc := clients.foldl (removeAwarenessStep now) ⟨aw, []⟩
  let events :=
    if acc.removed ≠ [] then
      [AwEvent.change ⟨[], [], acc.removed⟩, AwEvent.update ⟨[], [], acc.removed⟩]
    else []
  (acc.aw, events)

/-- Accumulator of the decode loop inside `applyAwarenessUpdate`. -/
structure ApplyAcc (St : Type) where
  aw : Awareness St
  added : List Nat
  updated : List Nat
  filteredUpdated : List Nat
  removed : List Nat

/-- The `currClock` computation of the source loop: the clock stored in
`meta` for a client, `0` when the client is unknown. -/
def knownClock {St : Type} (aw : Awareness St) (clientID : Nat) : Nat :=
  match mapGet aw.meta clientID with
  | none => 0
  | some m => m.clock

/-- One decoded `(clientID, clock, state)` entry of a remote awareness
update, processed exactly as in the source loop: accept when
`currClock < clock`, or on equal clock for a null state when an entry
exists; a null state for the live local client bumps the clock instead
of deleting. -/
def applyAwarenessEntry {St : Type} [DecidableEq St] (timestamp : Nat)
    (acc : ApplyAcc St) (entry : Nat × Nat × Option St) : ApplyAcc St :=
  let clientID := entry.1
  let clock := entry.2.1
  let state := entry.2.2
  let clientMeta := mapGet acc.aw.meta clientID
  let prevState := mapGet acc.aw.states clientID
  if knownClock acc.aw clientID < clock ∨
      (knownClock acc.aw clientID = clock ∧ state = none ∧ mapHas acc.aw.states clientID) then
    let pair : List (Nat × St) × Nat :=
      match state with
      | none =>
        if clientID = acc.aw.clientID ∧ (getLocalState acc.aw).isSome then
          (acc.aw.states, clock + 1)
        else
          (mapDel acc.aw.states clientID, clock)
      | some s => (mapSet acc.aw.states clientID s, clock)
    let meta' := mapSet acc.aw.meta clientID ⟨pair.2, timestamp⟩
    let aw' : Awareness St := { acc.aw with states := pair.1, meta := meta' }
    if clientMeta = none ∧ state ≠ none then
      { acc with aw := aw', added := acc.added ++ [clientID] }
    else if clientMeta ≠ none ∧ state = none then
      { acc with aw := aw', removed := acc.removed ++ [clientID] }
    else if state ≠ none then
      { acc with
        aw := aw'
        updated := acc.updated ++ [clientID]
        filteredUpdated :=
          if state ≠ prevState then acc.filteredUpdated ++ [clientID]
          else acc.filteredUpdated }
    else
      { acc with aw := aw' }
  else
    acc

/-- `applyAwarenessUpdate` on the decoded entry list of the update. -/
def applyAwarenessUpdate {St : Type} [DecidableEq St] (aw : Awareness St)
    (update : List (Nat × Nat × Option St)) (timestamp : Nat) :
    Awareness St × List AwEvent :=
  let acc := update.foldl (applyAwarenessEntry timestamp) ⟨aw, [], [], [], []⟩
  let events :=
    (if acc.added ≠ [] ∨ acc.filteredUpdated ≠ [] ∨ acc.removed ≠ [] then
        [AwEvent.change ⟨acc.added, acc.filteredUpdated, acc.removed⟩] else [])
    ++ (if acc.added ≠ [] ∨ acc.updated ≠ [] ∨ acc.removed ≠ [] then
        [AwEvent.update ⟨acc.added, acc.updated, acc.removed⟩] else [])
  (acc.aw, events)

/-- First stage of the periodic sweep: renew the local entry when half
the staleness window has passed since its `lastUpdated`. -/
def awarenessRenew {St : Type} [DecidableEq St] (aw : Awareness St) (now : Nat) :
    Awareness St × List AwEvent :=
  if (getLocalState aw).isSome ∧
      ((mapGet aw.meta aw.clientID).any
        fun m => decide (outdatedTimeout / 2 ≤ now - m.lastUpdated)) then
    setLocalState aw (getLocalState aw) now
  else (aw, [])

/-- The `remove` list collected by the sweep's `meta.forEach`: every
non-local client whose `meta` is at least `outdatedTimeout` old and
which still has a state entry. -/
def awarenessSweepRemove {St : Type} (aw1 : Awareness St) (now : Nat) : List Nat :=
  (aw1.meta.filter fun p =>
      decide (p.1 ≠ aw1.clientID ∧ outdatedTimeout ≤ now - p.2.lastUpdated ∧
        mapHas aw1.states p.1)).map Prod.fst

/-- The periodic sweep installed by the `Awareness` constructor: renew
the local entry when half the window has passed, then evict every
stale non-local client through `removeAwarenessStates`. -/
def awarenessCheck {St : Type} [DecidableEq St] (aw : Awareness St) (now : Nat) :
    Awareness St × List AwEvent :=
  let renew := awarenessRenew aw now
  let aw1 := renew.1
  let remove := awarenessSweepRemove aw1 now
  if remove ≠ [] then
    let res := removeAwarenessStates aw1 remove now
    (res.1, renew.2 ++ res.2)
  else
    (aw1, renew.2)

/-! ## Transport connection manager (`HocuspocusProviderWebsocket`)

The raw WebSocket is modelled by two flags (`wsPresent`: the
`webSocket` field is not `null`; `wsOpen`: its `readyState` is `Open`)
plus `wsSent`, the ordered list of byte frames handed to the raw
channel's `send` — the observable output of the channel.  Timers and
the event-listener plumbing are not part of the state; the watchdog and
close handlers become explicit step functions taking `now`. -/

/-- `WebSocketStatus` of the source. -/
inductive WebSocketStatus where
  | Connecting
  | Connected
  | Disconnected
deriving DecidableEq, Repr

/-- State of the connection manager. -/
structure WS where
  wsPresent : Bool
  wsOpen : Bool
  wsSent : List Bytes
  messageQueue : List Bytes
  shouldConnect : Bool
  status : WebSocketStatus
  lastMessageReceived : Nat
  closeTries : Nat
  connectionAttempt : Bool
  messageReconnectTimeout : Nat
deriving DecidableEq, Repr

/-- `HocuspocusProviderWebsocket.send`: hand the frame to the raw
channel when it is open, otherwise append it to the pending queue. -/
def WS.send (s : WS) (message : Bytes) : WS :=
  if s.wsPresent ∧ s.wsOpen then
    { s with wsSent := s.wsSent ++ [message] }
  else
    { s with messageQueue := s.messageQueue ++ [message] }

/-- `resolveConnectionAttempt`: resolve the pending attempt, switch to
Connected, replay the queued messages through `send` in order, then
clear the queue (the source's `forEach` iterates the entries present
when it starts, and the queue is reassigned to `[]` afterwards). -/
def WS.resolveConnectionAttempt (s : WS) : WS :=
  if s.connectionAttempt then
    let s1 := { s with connectionAttempt := false, status := WebSocketStatus.Connected }
    let s2 := s1.messageQueue.foldl WS.send s1
    { s2 with messageQueue := [] }
  else s

/-- `cleanupWebSocket`: remove the listeners, close and null the raw
socket (a no-op when there is none). -/
def WS.cleanupWebSocket (s : WS) : WS :=
  if s.wsPresent then { s with wsPresent := false, wsOpen := false } else s

/-- `onClose`: reset the close counter, clean up the socket, reject a
pending attempt, and mark the manager Disconnected (the re-connect
`setTimeout` is outside the modelled state). -/
def WS.onClose (s : WS) : WS :=
  let s1 := { s with closeTries := 0 }
  let s2 := s1.cleanupWebSocket
  let s3 := { s2 with connectionAttempt := false }
  { s3 with status := WebSocketStatus.Disconnected }

/-- Observation of what one watchdog evaluation did to the raw channel. -/
inductive CloseAction where
  | none
  | ordinaryClose
  | forceClose4408
deriving DecidableEq, Repr

/-- `checkConnection`, the liveness watchdog body: skip unless
Connected, at least one message seen, and the last message is older
than `messageReconnectTimeout`; then either close the raw socket
(first two tries) or force the close path with code 4408 (third). -/
def WS.checkConnection (s : WS) (now : Nat) : WS × CloseAction :=
  if s.status ≠ WebSocketStatus.Connected then (s, .none)
  else if s.lastMessageReceived = 0 then (s, .none)
  else if s.messageReconnectTimeout ≥ now - s.lastMessageReceived then (s, .none)
  else
    let s1 := { s with closeTries := s.closeTries + 1 }
    if s1.closeTries > 2 then
      ({ s1.onClose with closeTries := 0 }, .forceClose4408)
    else
      (if s1.wsPresent then { s1 with wsOpen := false, messageQueue := [] }
       else { s1 with messageQueue := [] }, .ordinaryClose)

/-- `disconnect`: clear the auto-reconnect flag; when a socket object
exists, close it and drop the queue, otherwise return at once. -/
def WS.disconnect (s : WS) : WS :=
  let s1 := { s with shouldConnect := false }
  if ¬ s1.wsPresent then s1
  else { s1 with wsOpen := false, messageQueue := [] }

/-! ## Document session (`HocuspocusProvider`) and message receiver

Only the state the claims touch is modelled: sync/auth flags, the
unsynced-change counter and attachment.  The Yjs document is opaque:
applied updates are logged, and `encodeStateAsUpdate` is passed in as
an abstract capability where a handler needs it.  Events are returned
as explicit lists. -/

/-- `MessageType` codes of the wire protocol. -/
def MessageTypeSync : Nat := 0

/-- Awareness message type code. -/
def MessageTypeAwareness : Nat := 1

/-- Observable events emitted by a provider. -/
inductive PEvent where
  | unsyncedChanges (n : Nat)
  | synced
  | outgoingMessage (m : Bytes)
  | stateless (payload : Bytes)
  | authenticationFailed
  | authenticated
  | closeEvent
deriving DecidableEq, Repr

/-- State of a document session. -/
structure Provider where
  isSynced : Bool
  unsyncedChanges : Nat
  isAuthenticated : Bool
  isAttachedFlag : Bool
  aw : Option (Awareness Nat)
  docUpdatesApplied : List Bytes
deriving Repr

/-- The `synced` setter: no change and no event when the value is
unchanged; emit `synced` when it becomes true. -/
def Provider.setSynced (p : Provider) (state : Bool) : Provider × List PEvent :=
  if p.isSynced = state then (p, [])
  else ({ p with isSynced := state }, if state then [PEvent.synced] else [])

/-- `resetUnsyncedChanges`: pessimistically one unsynced change. -/
def Provider.resetUnsyncedChanges (p : Provider) : Provider × List PEvent :=
  ({ p with unsyncedChanges := 1 }, [PEvent.unsyncedChanges 1])

/-- `incrementUnsyncedChanges`. -/
def Provider.incrementUnsyncedChanges (p : Provider) : Provider × List PEvent :=
  ({ p with unsyncedChanges := p.unsyncedChanges + 1 },
    [PEvent.unsyncedChanges (p.unsyncedChanges + 1)])

/-- `decrementUnsyncedChanges`: saturating decrement; reaching zero
sets `synced`. -/
def Provider.decrementUnsyncedChanges (p : Provider) : Provider × List PEvent :=
  let p1 := if p.unsyncedChanges > 0 then
      { p with unsyncedChanges := p.unsyncedChanges - 1 } else p
  let step := if p1.unsyncedChanges = 0 then p1.setSynced true else (p1, [])
  (step.1, step.2 ++ [PEvent.unsyncedChanges step.1.unsyncedChanges])

/-- `HocuspocusProvider.send`: a strict no-op unless the session is
attached; otherwise emit `outgoingMessage` and hand the assembled frame
to the connection manager's `send`. -/
def Provider.send (p : Provider) (ws : WS) (message : Bytes) :
    Provider × WS × List PEvent :=
  if ¬ p.isAttachedFlag then (p, ws, [])
  else (p, ws.send message, [PEvent.outgoingMessage message])

/-- Frame built by `SyncStepOneMessage`: document name, Sync type,
sync sub-code 0, then the encoded state vector. -/
def syncStepOneFrame (documentName : Bytes) (sv : Bytes) : Bytes :=
  writeVarUint8Array (writeVarUint (writeVarStringBytes [] documentName) MessageTypeSync ++ [0]) sv

/-- Frame built by `AwarenessMessage` for an already-encoded update. -/
def awarenessFrame (documentName : Bytes) (update : Bytes) : Bytes :=
  writeVarUint8Array (writeVarUint (writeVarStringBytes [] documentName) MessageTypeAwareness) update

/-- `startSync`: reset the unsynced counter, send a SyncStepOne frame,
and, when a local awareness state exists, an awareness snapshot for the
local client (`encodeLocalAwareness` stands for the encoded update of
`encodeAwarenessUpdate(awareness, [clientID])`). -/
def Provider.startSync (p : Provider) (ws : WS) (documentName sv : Bytes)
    (encodeLocalAwareness : Bytes) : Provider × WS × List PEvent :=
  let r := p.resetUnsyncedChanges
  let s1 := r.1.send ws (syncStepOneFrame documentName sv)
  match r.1.aw with
  | some a =>
    if (getLocalState a).isSome then
      let s2 := s1.1.send s1.2.1 (awarenessFrame documentName encodeLocalAwareness)
      (s2.1, s2.2.1, r.2 ++ s1.2.2 ++ s2.2.2)
    else (s1.1, s1.2.1, r.2 ++ s1.2.2)
  | none => (s1.1, s1.2.1, r.2 ++ s1.2.2)

/-- Sync-frame payload after the sub-code dispatch of
`readSyncMessage`: sub-codes 0 / 1 / 2. -/
inductive SyncSub where
  | step1 (sv : Bytes)
  | step2 (u : Bytes)
  | update (u : Bytes)
deriving DecidableEq, Repr

/-- Body of an incoming frame after the document name and the message
type have been read, carrying the decoded type-specific payload. -/
inductive FrameBody where
  | sync (sub : SyncSub)
  | awareness (entries : List (Nat × Nat × Option Nat))
  | auth (authenticated : Bool)
  | queryAwareness
  | stateless (payload : Bytes)
  | syncStatus (applied : Bool)
  | close (reason : Bytes)
deriving DecidableEq, Repr

/-- `applySyncMessage`: write the Sync type into the reply encoder,
dispatch `readSyncMessage` (step 1 answers with step 2 built from
`encodeStateAsUpdate`; step 2 / update apply the carried bytes to the
document), and flip `synced` on a step 2 when `emitSynced`. -/
def Provider.applySyncMessage (p : Provider) (encoder : Bytes)
    (encodeStateAsUpdate : Bytes → Bytes) (sub : SyncSub) (emitSynced : Bool) :
    Provider × Bytes × List PEvent :=
  let encoder1 := writeVarUint encoder MessageTypeSync
  match sub with
  | .step1 sv =>
    (p, writeVarUint8Array (encoder1 ++ [1]) (encodeStateAsUpdate sv), [])
  | .step2 u =>
    let p1 := { p with docUpdatesApplied := p.docUpdatesApplied ++ [u] }
    if emitSynced then
      let r := p1.setSynced true
      (r.1, encoder1, r.2)
    else (p1, encoder1, [])
  | .update u =>
    let p1 := { p with docUpdatesApplied := p.docUpdatesApplied ++ [u] }
    (p1, encoder1, [])

/-- The dispatch switch of `MessageReceiver.apply`.  The reply encoder
starts as `encoder0`, the document name written by
`HocuspocusProvider.onMessage` before dispatch; each handler may append
to it.  `encodeStateAsUpdate` and `encodeFullAwareness` are the opaque
document / awareness encoding capabilities. -/
def MessageReceiver.handle (p : Provider) (encoder0 : Bytes)
    (encodeStateAsUpdate : Bytes → Bytes) (encodeFullAwareness : Bytes)
    (body : FrameBody) (emitSynced : Bool) (timestamp : Nat) :
    Provider × Bytes × List PEvent :=
  match body with
  | .sync sub => p.applySyncMessage encoder0 encodeStateAsUpdate sub emitSynced
  | .awareness entries =>
    match p.aw with
    | none => (p, encoder0, [])
    | some a =>
      let r := applyAwarenessUpdate a entries timestamp
      ({ p with aw := some r.1 }, encoder0, [])
  | .auth ok =>
    if ok then ({ p with isAuthenticated := true }, encoder0, [PEvent.authenticated])
    else ({ p with isAuthenticated := false }, encoder0, [PEvent.authenticationFailed])
  | .queryAwareness =>
    match p.aw with
    | none => (p, encoder0, [])
    | some _ =>
      (p, writeVarUint8Array (writeVarUint encoder0 MessageTypeAwareness)
        encodeFullAwareness, [])
  | .stateless payload => (p, encoder0, [PEvent.stateless payload])
  | .syncStatus applied =>
    if applied then
      let r := p.decrementUnsyncedChanges
      (r.1, encoder0, r.2)
    else (p, encoder0, [])
  | .close _ => (p, encoder0, [PEvent.closeEvent])

/-- The reply step of `MessageReceiver.apply`: run the dispatch above
on a reply encoder pre-loaded with the document name, then send the
reply through `Provider.send` exactly when the encoder holds more than
`emptyMessageLength + 1` bytes. -/
def MessageReceiver.apply (p : Provider) (ws : WS) (documentName : Bytes)
    (encodeStateAsUpdate : Bytes → Bytes) (encodeFullAwareness : Bytes)
    (body : FrameBody) (emitSynced : Bool) (timestamp : Nat) :
    Provider × WS × List PEvent × Bytes :=
  let encoder0 := writeVarStringBytes [] documentName
  let emptyMessageLength := encoder0.length
  let handled := MessageReceiver.handle p encoder0 encodeStateAsUpdate
    encodeFullAwareness body emitSynced timestamp
  if handled.2.1.length > emptyMessageLength + 1 then
    let sent := handled.1.send ws handled.2.1
    (sent.1, sent.2.1, handled.2.2 ++ sent.2.2, handled.2.1)
  else
    (handled.1, ws, handled.2.2, handled.2.1)

/-! # Theorems -/

/-! ### Codec lemmas -/

/-- Unfolding equation for `writeVarUint` with a plain `if`. -/
theorem writeVarUint_def (encoder : Bytes) (num : Nat) :
    writeVarUint encoder num =
      if 127 < num then writeVarUint (encoder ++ [128 + num % 128]) (num / 128)
      else encoder ++ [num % 128] := by
  rw [writeVarUint]
  exact dite_eq_ite

/-- The encoder argument of `writeVarUint` is a pure accumulator. -/
theorem writeVarUint_append (encoder : Bytes) (num : Nat) :
    writeVarUint encoder num = encoder ++ writeVarUint [] num := by
  induction num using Nat.strong_induction_on generalizing encoder with
  | _ n ih =>
    rw [writeVarUint_def encoder n, writeVarUint_def [] n]
    by_cases h : 127 < n
    · rw [if_pos h, if_pos h,
        ih (n / 128) (Nat.div_lt_self (by omega) (by omega)) (encoder ++ [128 + n % 128]),
        ih (n / 128) (Nat.div_lt_self (by omega) (by omega)) ([] ++ [128 + n % 128])]
      simp [List.append_assoc]
    · rw [if_neg h, if_neg h, List.nil_append]

/-- Key round-trip lemma: decoding the encoding of `n` (followed by any
trailing bytes) from accumulators `num`, `mult` yields `num + n * mult`
and the trailing bytes, provided the final value stays at or below
`2 ^ 53` (partial sums are then strictly below `2 ^ 53`, so the range
check never fires). -/
theorem readVarUintLoop_writeVarUint (n : Nat) : ∀ (num mult : Nat) (rest : Bytes),
    0 < mult → num + n * mult ≤ 2 ^ 53 →
    readVarUintLoop (writeVarUint [] n ++ rest) num mult = .ok (num + n * mult, rest) := by
  induction n using Nat.strong_induction_on with
  | _ n ih =>
    intro num mult rest hmult hbound
    rw [writeVarUint_def [] n]
    by_cases h : 127 < n
    · have hsplit : n % 128 * mult + n / 128 * (mult * 128) = n * mult := by
        calc n % 128 * mult + n / 128 * (mult * 128)
            = (n % 128 + 128 * (n / 128)) * mult := by ring
          _ = n * mult := by rw [Nat.mod_add_div]
      have hmodlt : n % 128 < n := by omega
      have hstep : num + n % 128 * mult < 2 ^ 53 := by
        have : n % 128 * mult < n * mult :=
          Nat.mul_lt_mul_of_lt_of_le hmodlt (le_refl mult) hmult
        omega
      have hrec := ih (n / 128) (Nat.div_lt_self (by omega) (by omega))
        (num + n % 128 * mult) (mult * 128) rest
        (by positivity)
        (by omega)
      have hlist : writeVarUint [128 + n % 128] (n / 128) ++ rest
          = (128 + n % 128) :: (writeVarUint [] (n / 128) ++ rest) := by
        rw [writeVarUint_append [128 + n % 128]]
        simp
      rw [if_pos h, List.nil_append, hlist, readVarUintLoop,
        if_neg (show ¬ (128 + n % 128 < 128) by omega)]
      have hmod : (128 + n % 128) % 128 = n % 128 := by omega
      rw [hmod, if_neg (show ¬ (num + n % 128 * mult > MAX_SAFE_INTEGER) by
          simp only [MAX_SAFE_INTEGER]; omega),
        hrec]
      have hfin : num + n % 128 * mult + n / 128 * (mult * 128) = num + n * mult := by omega
      rw [hfin]
    · rw [if_neg h, List.nil_append, List.cons_append, readVarUintLoop,
        if_pos (show n % 128 < 128 by omega)]
      have h1 : n % 128 % 128 = n := by omega
      rw [h1, List.nil_append]

/-- C2 (amended): for every `0 ≤ n ≤ 2 ^ 53`, decoding the varuint
encoding of `n` returns `n`.  In particular `n = 2 ^ 53` also
round-trips: its encoding is seven continuation bytes of zero payload
followed by `16`, so the accumulated value never exceeds
`MAX_SAFE_INTEGER` while a continuation bit is pending and the range
check never fires. -/
theorem c2_varuint_roundtrip (n : Nat) (h : n ≤ 2 ^ 53) :
    readVarUint (writeVarUint [] n) = .ok (n, []) := by
  have := readVarUintLoop_writeVarUint n 0 1 [] (by omega) (by omega)
  simpa [readVarUint] using this

/-- Witness for C2's amended round-trip at `n = 300`. -/
theorem c2_varuint_roundtrip_witness :
    readVarUint (writeVarUint [] 300) = .ok (300, []) :=
  c2_varuint_roundtrip 300 (by norm_num)

/-- C2 counterexample: the claim asserts that decoding the encoding of
`2 ^ 53` fails with a RangeError (`integerOutOfRange`); in the code it
succeeds and returns `2 ^ 53`, because the range check only runs on
bytes that carry a continuation bit and the final byte `16` does not. -/
theorem c2_counterexample :
    readVarUint (writeVarUint [] (2 ^ 53)) = .ok (2 ^ 53, []) ∧
    readVarUint (writeVarUint [] (2 ^ 53)) ≠ .error DecodeError.integerOutOfRange := by
  have hok : readVarUint (writeVarUint [] (2 ^ 53)) = .ok (2 ^ 53, []) := by
    have := readVarUintLoop_writeVarUint (2 ^ 53) 0 1 [] (by omega) (by omega)
    simpa [readVarUint] using this
  exact ⟨hok, by rw [hok]; simp⟩

theorem mapGet_cons {α : Type} (p : Nat × α) (rest : List (Nat × α)) (k : Nat) :
    mapGet (p :: rest) k = if p.1 = k then some p.2 else mapGet rest k := by
  by_cases h : p.1 = k
  · rw [if_pos h]
    simp only [mapGet]
    rw [List.find?_cons_of_pos _ (by simpa using h)]
    rfl
  · rw [if_neg h]
    simp only [mapGet]
    rw [List.find?_cons_of_neg _ (by simpa using h)]

theorem mapGet_eq_none {α : Type} (m : List (Nat × α)) (k : Nat)
    (h : k ∉ m.map Prod.fst) : mapGet m k = none := by
  induction m with
  | nil => rfl
  | cons p rest ih =>
    simp only [List.map_cons, List.mem_cons] at h
    push_neg at h
    rw [mapGet_cons, if_neg (fun hc => h.1 hc.symm)]
    exact ih h.2

theorem mapGet_mapSet_self {α : Type} (m : List (Nat × α)) (k : Nat) (v : α) :
    mapGet (mapSet m k v) k = some v := by
  induction m with
  | nil =>
    rw [mapSet, mapGet_cons, if_pos rfl]
  | cons p rest ih =>
    by_cases h : p.1 = k
    · rw [mapSet, if_pos h, mapGet_cons, if_pos rfl]
    · rw [mapSet, if_neg h, mapGet_cons, if_neg h]
      exact ih

theorem mapGet_mapSet_ne {α : Type} (m : List (Nat × α)) (k k' : Nat) (v : α)
    (h : k' ≠ k) : mapGet (mapSet m k v) k' = mapGet m k' := by
  induction m with
  | nil =>
    rw [mapSet, mapGet_cons, if_neg (Ne.symm h)]
  | cons p rest ih =>
    by_cases hp : p.1 = k
    · subst hp
      rw [mapSet, if_pos rfl, mapGet_cons, mapGet_cons, if_neg (Ne.symm h), if_neg (Ne.symm h)]
    · rw [mapSet, if_neg hp, mapGet_cons, mapGet_cons]
      by_cases hpk' : p.1 = k'
      · rw [if_pos hpk', if_pos hpk']
      · rw [if_neg hpk', if_neg hpk']
        exact ih

theorem mapGet_mapDel_self {α : Type} (m : List (Nat × α)) (k : Nat)
    (hnd : (m.map Prod.fst).Nodup) : mapGet (mapDel m k) k = none := by
  induction m with
  | nil => rfl
  | cons p rest ih =>
    simp only [List.map_cons, List.nodup_cons] at hnd
    by_cases h : p.1 = k
    · subst h
      rw [mapDel, if_pos rfl]
      exact mapGet_eq_none rest p.1 hnd.1
    · rw [mapDel, if_neg h, mapGet_cons, if_neg h]
      exact ih hnd.2

theorem mapGet_mapDel_ne {α : Type} (m : List (Nat × α)) (k k' : Nat)
    (h : k' ≠ k) : mapGet (mapDel m k) k' = mapGet m k' := by
  induction m with
  | nil => rfl
  | cons p rest ih =>
    by_cases hp : p.1 = k
    · subst hp
      rw [mapDel, if_pos rfl, mapGet_cons, if_neg (Ne.symm h)]
    · rw [mapDel, if_neg hp, mapGet_cons, mapGet_cons]
      by_cases hpk' : p.1 = k'
      · rw [if_pos hpk', if_pos hpk']
      · rw [if_neg hpk', if_neg hpk']
        exact ih

theorem mem_keys_mapSet {α : Type} (m : List (Nat × α)) (k k' : Nat) (v : α) :
    k' ∈ (mapSet m k v).map Prod.fst ↔ k' ∈ m.map Prod.fst ∨ k' = k := by
  induction m with
  | nil =>
    rw [mapSet]
    simp
  | cons p rest ih =>
    by_cases h : p.1 = k
    · subst h
      rw [mapSet, if_pos rfl]
      simp
      tauto
    · rw [mapSet, if_neg h]
      simp only [List.map_cons, List.mem_cons, ih]
      tauto

theorem nodup_keys_mapSet {α : Type} (m : List (Nat × α)) (k : Nat) (v : α)
    (hnd : (m.map Prod.fst).Nodup) : ((mapSet m k v).map Prod.fst).Nodup := by
  induction m with
  | nil =>
    rw [mapSet]
    simp
  | cons p rest ih =>
    simp only [List.map_cons, List.nodup_cons] at hnd
    by_cases h : p.1 = k
    · subst h
      rw [mapSet, if_pos rfl]
      simp only [List.map_cons, List.nodup_cons]
      exact hnd
    · rw [mapSet, if_neg h]
      simp only [List.map_cons, List.nodup_cons]
      exact ⟨fun hc => by
          rcases (mem_keys_mapSet rest k p.1 v).mp hc with hc' | hc'
          · exact hnd.1 hc'
          · exact h hc',
        ih hnd.2⟩

theorem mem_keys_mapDel {α : Type} (m : List (Nat × α)) (k k' : Nat) :
    k' ∈ (mapDel m k).map Prod.fst → k' ∈ m.map Prod.fst := by
  induction m with
  | nil => simp [mapDel]
  | cons p rest ih =>
    by_cases h : p.1 = k
    · rw [mapDel, if_pos h]
      simp only [List.map_cons, List.mem_cons]
      tauto
    · rw [mapDel, if_neg h]
      simp only [List.map_cons, List.mem_cons]
      intro hc
      rcases hc with hc | hc
      · exact Or.inl hc
      · exact Or.inr (ih hc)

theorem nodup_keys_mapDel {α : Type} (m : List (Nat × α)) (k : Nat)
    (hnd : (m.map Prod.fst).Nodup) : ((mapDel m k).map Prod.fst).Nodup := by
  induction m with
  | nil => simp [mapDel]
  | cons p rest ih =>
    simp only [List.map_cons, List.nodup_cons] at hnd
    by_cases h : p.1 = k
    · rw [mapDel, if_pos h]
      exact hnd.2
    · rw [mapDel, if_neg h]
      simp only [List.map_cons, List.nodup_cons]
      exact ⟨fun hc => hnd.1 (mem_keys_mapDel rest k p.1 hc), ih hnd.2⟩

/-! ### Awareness claims -/

/-- C4: when the local client's state is non-null with known clock `c`,
a remote update carrying `(localClientId, c, null)` does not delete the
local state and strictly increases the stored clock (to `c + 1`). -/
theorem c4_local_state_preserved {St : Type} [DecidableEq St] (aw : Awareness St)
    (v : St) (c t0 ts : Nat)
    (hstate : mapGet aw.states aw.clientID = some v)
    (hmeta : mapGet aw.meta aw.clientID = some ⟨c, t0⟩) :
    mapGet (applyAwarenessUpdate aw [(aw.clientID, c, none)] ts).1.states aw.clientID
      = some v ∧
    mapGet (applyAwarenessUpdate aw [(aw.clientID, c, none)] ts).1.meta aw.clientID
      = some ⟨c + 1, ts⟩ := by
  have hknown : knownClock aw aw.clientID = c := by simp [knownClock, hmeta]
  have hhas : mapHas aw.states aw.clientID = true := by simp [mapHas, hstate]
  have hloc : (getLocalState aw).isSome = true := by simp [getLocalState, hstate]
  simp [applyAwarenessUpdate, applyAwarenessEntry, hknown, hhas, hloc, hmeta,
    hstate, mapGet_mapSet_self]

/-- Witness for C4 at a concrete store: local client `0` with state
`10` and clock `5`. -/
theorem c4_local_state_preserved_witness :
    mapGet (applyAwarenessUpdate (⟨0, [(0, 10)], [(0, ⟨5, 100⟩)]⟩ : Awareness Nat)
        [(0, 5, none)] 200).1.states 0 = some 10 ∧
    mapGet (applyAwarenessUpdate (⟨0, [(0, 10)], [(0, ⟨5, 100⟩)]⟩ : Awareness Nat)
        [(0, 5, none)] 200).1.meta 0 = some ⟨6, 200⟩ :=
  c4_local_state_preserved ⟨0, [(0, 10)], [(0, ⟨5, 100⟩)]⟩ 10 5 100 200
    (by rfl) (by rfl)

/-- Accepting a single-entry awareness update for a non-local client
whose accepted clock is newer than the known one: the stored state
becomes the carried state, the stored meta becomes `(c, t)`, the local
id is unchanged and key uniqueness of `states` is preserved. -/
theorem applyAwarenessUpdate_single_accept {St : Type} [DecidableEq St]
    (aw : Awareness St) (id c : Nat) (s : Option St) (t : Nat)
    (hid : id ≠ aw.clientID) (hc : knownClock aw id < c)
    (hnd : (aw.states.map Prod.fst).Nodup) :
    mapGet (applyAwarenessUpdate aw [(id, c, s)] t).1.states id = s ∧
    mapGet (applyAwarenessUpdate aw [(id, c, s)] t).1.meta id = some ⟨c, t⟩ ∧
    (applyAwarenessUpdate aw [(id, c, s)] t).1.clientID = aw.clientID ∧
    ((applyAwarenessUpdate aw [(id, c, s)] t).1.states.map Prod.fst).Nodup := by
  cases s with
  | none =>
    simp only [applyAwarenessUpdate, List.foldl, applyAwarenessEntry]
    rw [if_pos (Or.inl hc)]
    simp only [if_neg (fun hcontra => hid (And.left hcontra))]
    by_cases hm : mapGet aw.meta id = none
    · simp [hm, mapGet_mapDel_self aw.states id hnd, mapGet_mapSet_self,
        nodup_keys_mapDel, hnd]
    · simp [hm, mapGet_mapDel_self aw.states id hnd, mapGet_mapSet_self,
        nodup_keys_mapDel, hnd]
  | some v =>
    simp only [applyAwarenessUpdate, List.foldl, applyAwarenessEntry]
    rw [if_pos (Or.inl hc)]
    by_cases hm : mapGet aw.meta id = none
    · simp [hm, mapGet_mapSet_self, nodup_keys_mapSet, hnd]
    · simp [hm, mapGet_mapSet_self, nodup_keys_mapSet, hnd]

/-- Rejecting a single-entry awareness update whose clock is older than
the known clock leaves the store untouched. -/
theorem applyAwarenessUpdate_single_reject {St : Type} [DecidableEq St]
    (aw : Awareness St) (id c : Nat) (s : Option St) (t : Nat)
    (hc : c < knownClock aw id) :
    (applyAwarenessUpdate aw [(id, c, s)] t).1 = aw := by
  simp only [applyAwarenessUpdate, List.foldl, applyAwarenessEntry]
  rw [if_neg]
  push_neg
  exact ⟨by omega, fun h1 => absurd h1 (by omega)⟩

/-- C3 (amended): for a client id other than the store's local one, and
a store whose known clock for that id is below `c1`, two updates with
clocks `c1 < c2` leave the stored state equal to the state carried by
the `c2` update, in either application order. -/
theorem c3_awareness_lww {St : Type} [DecidableEq St] (aw : Awareness St)
    (id c1 c2 t1 t2 : Nat) (s1 s2 : Option St)
    (hid : id ≠ aw.clientID) (hclock : knownClock aw id < c1) (h12 : c1 < c2)
    (hnd : (aw.states.map Prod.fst).Nodup) :
    mapGet (applyAwarenessUpdate
        (applyAwarenessUpdate aw [(id, c1, s1)] t1).1 [(id, c2, s2)] t2).1.states id
      = s2 ∧
    mapGet (applyAwarenessUpdate
        (applyAwarenessUpdate aw [(id, c2, s2)] t1).1 [(id, c1, s1)] t2).1.states id
      = s2 := by
  obtain ⟨ha1, ha2, ha3, ha4⟩ :=
    applyAwarenessUpdate_single_accept aw id c1 s1 t1 hid hclock hnd
  obtain ⟨hb1, hb2, hb3, hb4⟩ :=
    applyAwarenessUpdate_single_accept aw id c2 s2 t1 hid (lt_trans hclock h12) hnd
  constructor
  · obtain ⟨hc1', _, _, _⟩ := applyAwarenessUpdate_single_accept
      (applyAwarenessUpdate aw [(id, c1, s1)] t1).1 id c2 s2 t2
      (ha3 ▸ hid) (by rw [knownClock, ha2]; exact h12) ha4
    exact hc1'
  · rw [applyAwarenessUpdate_single_reject
      (applyAwarenessUpdate aw [(id, c2, s2)] t1).1 id c1 s1 t2
      (by rw [knownClock, hb2]; exact h12)]
    exact hb1

/-- Witness for C3's amended statement: non-local client `7` in a store
with local client `0`, updates `(7, 1, some 5)` then `(7, 2, some 6)`. -/
theorem c3_awareness_lww_witness :
    mapGet (applyAwarenessUpdate
        (applyAwarenessUpdate (⟨0, [(0, 10)], [(0, ⟨0, 100⟩)]⟩ : Awareness Nat)
          [(7, 1, some 5)] 200).1 [(7, 2, some 6)] 201).1.states 7 = some 6 ∧
    mapGet (applyAwarenessUpdate
        (applyAwarenessUpdate (⟨0, [(0, 10)], [(0, ⟨0, 100⟩)]⟩ : Awareness Nat)
          [(7, 2, some 6)] 200).1 [(7, 1, some 5)] 201).1.states 7 = some 6 := by
  have := c3_awareness_lww (⟨0, [(0, 10)], [(0, ⟨0, 100⟩)]⟩ : Awareness Nat)
    7 1 2 200 201 (some 5) (some 6) (by decide) (by decide) (by decide) (by decide)
  exact ⟨this.1, this.2⟩

/-- C3 counterexample: for the local client id the claim fails.  Store:
local client `0` with non-null state `10` and clock `0`.  Update `u1`
carries `(0, 1, null)` (clock `c1 = 1`), update `u2` carries
`(0, 2, some 20)` (clock `c2 = 2`).  Applying `u1` then `u2` leaves the
stored state `10`, not the state `20` carried by the `c2` update: the
null update bumps the local clock to `2`, so `u2` arrives with a
non-strictly-newer clock and is rejected. -/
theorem c3_counterexample :
    ¬ (mapGet (applyAwarenessUpdate
        (applyAwarenessUpdate (⟨0, [(0, 10)], [(0, ⟨0, 100⟩)]⟩ : Awareness Nat)
          [(0, 1, none)] 200).1 [(0, 2, some 20)] 201).1.states 0 = some 20) := by
  decide

/-! ### Connection-manager claims -/

theorem WS.send_closed (s : WS) (m : Bytes)
    (h : ¬ (s.wsPresent = true ∧ s.wsOpen = true)) :
    s.send m = { s with messageQueue := s.messageQueue ++ [m] } := by
  rw [WS.send, if_neg h]

theorem WS.send_open (s : WS) (m : Bytes) (h1 : s.wsPresent = true)
    (h2 : s.wsOpen = true) :
    s.send m = { s with wsSent := s.wsSent ++ [m] } := by
  rw [WS.send, if_pos ⟨h1, h2⟩]

/-- Flushing a list of messages through `send` on an open channel
appends them to the channel output in order and leaves the queue
field untouched. -/
theorem WS.foldl_send_open (q : List Bytes) : ∀ (s : WS),
    s.wsPresent = true → s.wsOpen = true →
    (q.foldl WS.send s).wsSent = s.wsSent ++ q ∧
    (q.foldl WS.send s).messageQueue = s.messageQueue := by
  induction q with
  | nil =>
    intro s _ _
    simp
  | cons m rest ih =>
    intro s h1 h2
    rw [List.foldl_cons, WS.send_open s m h1 h2]
    obtain ⟨ha, hb⟩ := ih { s with wsSent := s.wsSent ++ [m] } h1 h2
    refine ⟨?_, hb⟩
    rw [ha]
    simp

/-- C6: three messages sent while the channel is not open are appended
to the pending queue in order, and resolving the connection attempt
once the channel is open delivers them to the channel in exactly that
order (after any earlier queue content) and empties the queue. -/
theorem c6_message_ordering (ws : WS) (m1 m2 m3 : Bytes)
    (hclosed : ¬ (ws.wsPresent = true ∧ ws.wsOpen = true))
    (hatt : ws.connectionAttempt = true) :
    (((ws.send m1).send m2).send m3).messageQueue
        = ws.messageQueue ++ [m1, m2, m3] ∧
    (WS.resolveConnectionAttempt
        { ((ws.send m1).send m2).send m3 with wsPresent := true, wsOpen := true }).wsSent
        = ws.wsSent ++ (ws.messageQueue ++ [m1, m2, m3]) ∧
    (WS.resolveConnectionAttempt
        { ((ws.send m1).send m2).send m3 with wsPresent := true, wsOpen := true }).messageQueue
        = [] := by
  have hq : ((ws.send m1).send m2).send m3
      = { ws with messageQueue := ws.messageQueue ++ [m1, m2, m3] } := by
    rw [WS.send_closed ws m1 hclosed,
      WS.send_closed { ws with messageQueue := ws.messageQueue ++ [m1] } m2 hclosed,
      WS.send_closed { ws with messageQueue := ws.messageQueue ++ [m1] ++ [m2] } m3 hclosed]
    simp
  rw [hq]
  refine ⟨rfl, ?_, ?_⟩
  · rw [WS.resolveConnectionAttempt, if_pos hatt]
    have := WS.foldl_send_open (ws.messageQueue ++ [m1, m2, m3])
      { ws with
          wsPresent := true,
          wsOpen := true,
          messageQueue := ws.messageQueue ++ [m1, m2, m3],
          connectionAttempt := false,
          status := WebSocketStatus.Connected }
      rfl rfl
    simp_all
  · rw [WS.resolveConnectionAttempt, if_pos hatt]

/-- Witness for C6 at a concrete closed manager with one queued frame. -/
theorem c6_message_ordering_witness :
    (((WS.send ⟨false, false, [[9]], [[0]], true, .Disconnected, 0, 0, true, 30000⟩
        [1]).send [2]).send [3]).messageQueue = [[0], [1], [2], [3]] ∧
    (WS.resolveConnectionAttempt
        { ((WS.send ⟨false, false, [[9]], [[0]], true, .Disconnected, 0, 0, true, 30000⟩
            [1]).send [2]).send [3] with wsPresent := true, wsOpen := true }).wsSent
        = [[9], [0], [1], [2], [3]] ∧
    (WS.resolveConnectionAttempt
        { ((WS.send ⟨false, false, [[9]], [[0]], true, .Disconnected, 0, 0, true, 30000⟩
            [1]).send [2]).send [3] with wsPresent := true, wsOpen := true }).messageQueue
        = [] :=
  c6_message_ordering ⟨false, false, [[9]], [[0]], true, .Disconnected, 0, 0, true, 30000⟩
    [1] [2] [3] (by simp) rfl

/-- C8 counterexample: when no socket object exists (`webSocket` is
null) but frames are queued, `disconnect()` returns after clearing the
flag and the pending queue is NOT dropped, contradicting the claim's
"for every state ... the pending outbound message queue is empty". -/
theorem c8_counterexample :
    (WS.disconnect ⟨false, false, [], [[1]], true, .Disconnected, 0, 0, false, 30000⟩).messageQueue
        = [[1]] ∧
    (WS.disconnect ⟨false, false, [], [[1]], true, .Disconnected, 0, 0, false, 30000⟩).shouldConnect
        = false := by
  decide

/-- C8 (amended): `disconnect()` always clears the auto-reconnect flag;
when a socket object exists it also closes it and drops the queue; when
the socket is absent it returns immediately, changing nothing else (in
particular the queue keeps its content). -/
theorem c8_disconnect (s : WS) :
    s.disconnect.shouldConnect = false ∧
    (s.wsPresent = true →
      s.disconnect.wsOpen = false ∧ s.disconnect.messageQueue = []) ∧
    (s.wsPresent = false → s.disconnect = { s with shouldConnect := false }) := by
  by_cases h : s.wsPresent = true
  · rw [WS.disconnect]
    simp [h]
  · rw [WS.disconnect]
    simp only [Bool.not_eq_true] at h
    simp [h]

/-- Witness for C8's amended statement at a concrete manager with an
open socket and a queued frame. -/
theorem c8_disconnect_witness :
    (WS.disconnect ⟨true, true, [], [[2]], true, .Connected, 7, 0, false, 30000⟩).shouldConnect
        = false ∧
    (WS.disconnect ⟨true, true, [], [[2]], true, .Connected, 7, 0, false, 30000⟩).messageQueue
        = [] :=
  ⟨(c8_disconnect _).1,
    ((c8_disconnect ⟨true, true, [], [[2]], true, .Connected, 7, 0, false, 30000⟩).2.1 rfl).2⟩

/-- C10: `HocuspocusProvider.send` on a detached session is a complete
no-op: the session state, the connection manager state (channel and
queue included) and the emitted event list are all unchanged. -/
theorem c10_detached_send_noop (p : Provider) (ws : WS) (m : Bytes)
    (h : p.isAttachedFlag = false) :
    p.send ws m = (p, ws, []) := by
  rw [Provider.send, if_pos]
  simp [h]

/-- Witness for C10 at a concrete detached provider. -/
theorem c10_detached_send_noop_witness :
    Provider.send ⟨false, 0, false, false, none, []⟩
        ⟨true, true, [], [], true, .Connected, 7, 0, false, 30000⟩ [5]
      = (⟨false, 0, false, false, none, []⟩,
          ⟨true, true, [], [], true, .Connected, 7, 0, false, 30000⟩, []) :=
  c10_detached_send_noop _ _ _ rfl

/-- A stale watchdog evaluation below the escalation threshold: action
is an ordinary close, and the fields the next evaluation inspects keep
their values except `closeTries`, which increments. -/
theorem WS.checkConnection_stale_close (s : WS) (now : Nat)
    (hstatus : s.status = .Connected) (hrecv : s.lastMessageReceived ≠ 0)
    (hstale : s.messageReconnectTimeout < now - s.lastMessageReceived)
    (htries : s.closeTries + 1 ≤ 2) :
    (s.checkConnection now).2 = .ordinaryClose ∧
    (s.checkConnection now).1.status = .Connected ∧
    (s.checkConnection now).1.lastMessageReceived = s.lastMessageReceived ∧
    (s.checkConnection now).1.messageReconnectTimeout = s.messageReconnectTimeout ∧
    (s.checkConnection now).1.closeTries = s.closeTries + 1 := by
  rw [WS.checkConnection, if_neg (by simp [hstatus]), if_neg hrecv,
    if_neg (by omega)]
  simp only [if_neg (show ¬ s.closeTries + 1 > 2 by omega)]
  by_cases hp : s.wsPresent = true <;> simp [hp, hstatus]

/-- A stale watchdog evaluation at the escalation threshold forces the
close path with code 4408. -/
theorem WS.checkConnection_stale_force (s : WS) (now : Nat)
    (hstatus : s.status = .Connected) (hrecv : s.lastMessageReceived ≠ 0)
    (hstale : s.messageReconnectTimeout < now - s.lastMessageReceived)
    (htries : 2 ≤ s.closeTries) :
    (s.checkConnection now).2 = .forceClose4408 := by
  rw [WS.checkConnection, if_neg (by simp [hstatus]), if_neg hrecv,
    if_neg (by omega)]
  simp only [if_pos (show s.closeTries + 1 > 2 by omega)]

/-- C5: while Connected with at least one message received and the
inbound silence exceeding `messageReconnectTimeout` at three successive
watchdog evaluations (starting from a zero close counter), the first
two evaluations close the raw channel ordinarily and the third
force-closes with code 4408. -/
theorem c5_watchdog_escalation (s : WS) (now1 now2 now3 : Nat)
    (hstatus : s.status = .Connected) (hrecv : s.lastMessageReceived ≠ 0)
    (htries : s.closeTries = 0)
    (h1 : s.messageReconnectTimeout < now1 - s.lastMessageReceived)
    (h2 : s.messageReconnectTimeout < now2 - s.lastMessageReceived)
    (h3 : s.messageReconnectTimeout < now3 - s.lastMessageReceived) :
    (s.checkConnection now1).2 = .ordinaryClose ∧
    ((s.checkConnection now1).1.checkConnection now2).2 = .ordinaryClose ∧
    (((s.checkConnection now1).1.checkConnection now2).1.checkConnection now3).2
      = .forceClose4408 := by
  obtain ⟨a1, b1, c1, d1, e1⟩ := WS.checkConnection_stale_close s now1
    hstatus hrecv h1 (by omega)
  obtain ⟨a2, b2, c2, d2, e2⟩ := WS.checkConnection_stale_close
    (s.checkConnection now1).1 now2 b1 (by rw [c1]; exact hrecv)
    (by rw [c1, d1]; exact h2) (by omega)
  refine ⟨a1, a2, ?_⟩
  exact WS.checkConnection_stale_force ((s.checkConnection now1).1.checkConnection now2).1
    now3 b2 (by rw [c2, c1]; exact hrecv) (by rw [c2, c1, d2, d1]; exact h3)
    (by omega)

/-- Witness for C5 at a concrete connected manager last heard from at
time 100 with a 30000 ms window, evaluated at times 40000, 80000,
120000. -/
theorem c5_watchdog_escalation_witness :
    (WS.checkConnection ⟨true, true, [], [], true, .Connected, 100, 0, false, 30000⟩
        40000).2 = .ordinaryClose ∧
    ((WS.checkConnection ⟨true, true, [], [], true, .Connected, 100, 0, false, 30000⟩
        40000).1.checkConnection 80000).2 = .ordinaryClose ∧
    (((WS.checkConnection ⟨true, true, [], [], true, .Connected, 100, 0, false, 30000⟩
        40000).1.checkConnection 80000).1.checkConnection 120000).2 = .forceClose4408 :=
  c5_watchdog_escalation ⟨true, true, [], [], true, .Connected, 100, 0, false, 30000⟩
    40000 80000 120000 rfl (by decide) rfl (by decide) (by decide) (by decide)

/-! ### Document-session claims -/

theorem Provider.send_fst (p : Provider) (ws : WS) (m : Bytes) :
    (p.send ws m).1 = p := by
  rw [Provider.send]
  split <;> rfl

theorem Provider.startSync_fst (p : Provider) (ws : WS) (d sv e : Bytes) :
    (p.startSync ws d sv e).1 = { p with unsyncedChanges := 1 } := by
  simp only [Provider.startSync, Provider.resetUnsyncedChanges]
  cases haw : p.aw with
  | none => simp [haw, Provider.send_fst]
  | some a =>
    by_cases hl : (getLocalState a).isSome <;> simp [haw, hl, Provider.send_fst]

theorem MessageReceiver.apply_fst (p : Provider) (ws : WS) (docName : Bytes)
    (esu : Bytes → Bytes) (ea : Bytes) (body : FrameBody) (es : Bool) (ts : Nat) :
    (MessageReceiver.apply p ws docName esu ea body es ts).1
      = (MessageReceiver.handle p (writeVarStringBytes [] docName) esu ea body es ts).1 := by
  simp only [MessageReceiver.apply]
  split
  · rw [Provider.send_fst]
  · rfl

/-- C1 counterexample: concrete session that has just started sync
(counter reset to 1, SyncStepOne sent) and then applies a
StateSnapshotReply (sub-code 1) carrying bytes `[7]`: the synced flag
does become true, but the unsynced-change counter reads 1 — not 0 as
the claim states — because only SyncStatus acknowledgements decrement
it. -/
theorem c1_counterexample :
    (MessageReceiver.apply
        (Provider.startSync ⟨false, 0, false, true, none, []⟩
          ⟨true, true, [], [], true, .Connected, 5, 0, false, 30000⟩ [100] [] []).1
        (Provider.startSync ⟨false, 0, false, true, none, []⟩
          ⟨true, true, [], [], true, .Connected, 5, 0, false, 30000⟩ [100] [] []).2.1
        [100] (fun b => b) [] (.sync (.step2 [7])) true 50).1.isSynced = true ∧
    ¬ ((MessageReceiver.apply
        (Provider.startSync ⟨false, 0, false, true, none, []⟩
          ⟨true, true, [], [], true, .Connected, 5, 0, false, 30000⟩ [100] [] []).1
        (Provider.startSync ⟨false, 0, false, true, none, []⟩
          ⟨true, true, [], [], true, .Connected, 5, 0, false, 30000⟩ [100] [] []).2.1
        [100] (fun b => b) [] (.sync (.step2 [7])) true 50).1.unsyncedChanges = 0) := by
  rw [MessageReceiver.apply_fst, Provider.startSync_fst]
  simp [MessageReceiver.handle, Provider.applySyncMessage, Provider.setSynced]

/-- C1 (amended): after `startSync` (which resets the unsynced counter
to 1 and sends the StateVectorRequest), receiving and applying a
StateSnapshotReply (sync sub-code 1) makes `synced` true while the
unsynced-change counter stays at 1; it reaches 0 only through later
SyncStatus acknowledgements. -/
theorem c1_step2_sets_synced_counter_one (p : Provider) (ws : WS)
    (docName sv encAw encFull U : Bytes) (esu : Bytes → Bytes) (ts : Nat) :
    (MessageReceiver.apply (p.startSync ws docName sv encAw).1
        (p.startSync ws docName sv encAw).2.1 docName esu encFull
        (.sync (.step2 U)) true ts).1.isSynced = true ∧
    (MessageReceiver.apply (p.startSync ws docName sv encAw).1
        (p.startSync ws docName sv encAw).2.1 docName esu encFull
        (.sync (.step2 U)) true ts).1.unsyncedChanges = 1 := by
  rw [MessageReceiver.apply_fst, Provider.startSync_fst]
  simp only [MessageReceiver.handle, Provider.applySyncMessage, Provider.setSynced]
  refine ⟨?_, ?_⟩ <;> (split <;> (try split) <;> simp_all)

/-- Witness for C1's amended statement at the concrete session of the
counterexample scenario. -/
theorem c1_step2_sets_synced_counter_one_witness :
    (MessageReceiver.apply
        (Provider.startSync ⟨false, 0, false, true, none, []⟩
          ⟨true, true, [], [], true, .Connected, 5, 0, false, 30000⟩ [100] [] []).1
        (Provider.startSync ⟨false, 0, false, true, none, []⟩
          ⟨true, true, [], [], true, .Connected, 5, 0, false, 30000⟩ [100] [] []).2.1
        [100] (fun b => b) [] (.sync (.step2 [7])) true 50).1.isSynced = true ∧
    (MessageReceiver.apply
        (Provider.startSync ⟨false, 0, false, true, none, []⟩
          ⟨true, true, [], [], true, .Connected, 5, 0, false, 30000⟩ [100] [] []).1
        (Provider.startSync ⟨false, 0, false, true, none, []⟩
          ⟨true, true, [], [], true, .Connected, 5, 0, false, 30000⟩ [100] [] []).2.1
        [100] (fun b => b) [] (.sync (.step2 [7])) true 50).1.unsyncedChanges = 1 :=
  c1_step2_sets_synced_counter_one ⟨false, 0, false, true, none, []⟩
    ⟨true, true, [], [], true, .Connected, 5, 0, false, 30000⟩ [100] [] [] [] [7]
    (fun b => b) 50

theorem writeVarUint8Array_append (e d : Bytes) :
    writeVarUint8Array e d = e ++ writeVarUint8Array [] d := by
  simp [writeVarUint8Array, writeVarUint_append e, List.append_assoc]

/-- No handler of the dispatch switch changes the attachment flag. -/
theorem MessageReceiver.handle_attached (p : Provider) (e0 : Bytes)
    (esu : Bytes → Bytes) (ea : Bytes) (body : FrameBody) (es : Bool) (ts : Nat) :
    (MessageReceiver.handle p e0 esu ea body es ts).1.isAttachedFlag
      = p.isAttachedFlag := by
  cases body <;>
    simp only [MessageReceiver.handle, Provider.applySyncMessage, Provider.setSynced,
      Provider.decrementUnsyncedChanges] <;>
    (repeat' split) <;> rfl

/-- Every handler only appends to the reply encoder, so the document
name written before dispatch stays at the front. -/
theorem MessageReceiver.handle_encoder_starts (p : Provider) (e0 : Bytes)
    (esu : Bytes → Bytes) (ea : Bytes) (body : FrameBody) (es : Bool) (ts : Nat) :
    ∃ rest, (MessageReceiver.handle p e0 esu ea body es ts).2.1 = e0 ++ rest := by
  cases body with
  | sync sub =>
    cases sub with
    | step1 sv =>
      refine ⟨writeVarUint [] MessageTypeSync ++ ([1] ++ writeVarUint8Array [] (esu sv)), ?_⟩
      simp only [MessageReceiver.handle, Provider.applySyncMessage]
      rw [writeVarUint8Array_append (writeVarUint e0 MessageTypeSync ++ [1]) (esu sv),
        writeVarUint_append e0]
      simp [List.append_assoc]
    | step2 u =>
      refine ⟨writeVarUint [] MessageTypeSync, ?_⟩
      cases es <;>
        simp [MessageReceiver.handle, Provider.applySyncMessage, writeVarUint_append e0]
    | update u =>
      refine ⟨writeVarUint [] MessageTypeSync, ?_⟩
      simp [MessageReceiver.handle, Provider.applySyncMessage, writeVarUint_append e0]
  | awareness entries =>
    refine ⟨[], ?_⟩
    cases haw : p.aw <;> simp [MessageReceiver.handle, haw]
  | auth ok =>
    refine ⟨[], ?_⟩
    cases ok <;> simp [MessageReceiver.handle]
  | queryAwareness =>
    cases haw : p.aw with
    | none => exact ⟨[], by simp [MessageReceiver.handle, haw]⟩
    | some a =>
      refine ⟨writeVarUint [] MessageTypeAwareness ++ writeVarUint8Array [] ea, ?_⟩
      simp only [MessageReceiver.handle, haw]
      rw [writeVarUint8Array_append (writeVarUint e0 MessageTypeAwareness) ea,
        writeVarUint_append e0]
      simp [List.append_assoc]
  | stateless payload => exact ⟨[], by simp [MessageReceiver.handle]⟩
  | syncStatus applied =>
    refine ⟨[], ?_⟩
    cases applied <;> simp [MessageReceiver.handle]
  | close reason => exact ⟨[], by simp [MessageReceiver.handle]⟩

/-- C9: for every processed frame, on an attached session over an open
channel, a reply is handed to the channel if and only if the reply
encoder accumulated bytes beyond the empty-frame length (document name
plus the one-byte message type); when it is sent, it is exactly the
encoder content, which starts with the same document name. -/
theorem c9_reply_iff (p : Provider) (ws : WS) (docName : Bytes) (esu : Bytes → Bytes)
    (ea : Bytes) (body : FrameBody) (es : Bool) (ts : Nat)
    (hatt : p.isAttachedFlag = true) (hp : ws.wsPresent = true) (ho : ws.wsOpen = true) :
    ((MessageReceiver.apply p ws docName esu ea body es ts).2.1.wsSent ≠ ws.wsSent
      ↔ (MessageReceiver.handle p (writeVarStringBytes [] docName) esu ea body es ts).2.1.length
          > (writeVarStringBytes [] docName).length + 1) ∧
    ((MessageReceiver.handle p (writeVarStringBytes [] docName) esu ea body es ts).2.1.length
          > (writeVarStringBytes [] docName).length + 1 →
      (MessageReceiver.apply p ws docName esu ea body es ts).2.1.wsSent
        = ws.wsSent ++
          [(MessageReceiver.handle p (writeVarStringBytes [] docName) esu ea body es ts).2.1] ∧
      ∃ rest, (MessageReceiver.handle p (writeVarStringBytes [] docName) esu ea body es ts).2.1
          = writeVarStringBytes [] docName ++ rest) := by
  have hsend : ∀ m,
      ((MessageReceiver.handle p (writeVarStringBytes [] docName) esu ea body es ts).1.send
        ws m).2.1 = ws.send m := by
    intro m
    rw [Provider.send, if_neg (not_not_intro (by
      rw [MessageReceiver.handle_attached]
      exact hatt))]
  by_cases hc : (MessageReceiver.handle p (writeVarStringBytes [] docName) esu ea body es ts).2.1.length
      > (writeVarStringBytes [] docName).length + 1
  · have happly : (MessageReceiver.apply p ws docName esu ea body es ts).2.1
        = ws.send (MessageReceiver.handle p (writeVarStringBytes [] docName) esu ea body es ts).2.1 := by
      simp only [MessageReceiver.apply]
      rw [if_pos hc]
      exact hsend _
    rw [happly, WS.send_open ws _ hp ho]
    refine ⟨⟨fun _ => hc, fun _ heq => ?_⟩, fun _ => ⟨rfl, MessageReceiver.handle_encoder_starts p _ esu ea body es ts⟩⟩
    have := congrArg List.length heq
    simp at this
  · have happly : (MessageReceiver.apply p ws docName esu ea body es ts).2.1 = ws := by
      simp only [MessageReceiver.apply]
      rw [if_neg hc]
    rw [happly]
    exact ⟨⟨fun h => absurd rfl h, fun h => absurd h hc⟩, fun h => absurd h hc⟩

/-- Witness for C9 at a concrete attached session, open channel, and a
Stateless frame (which accumulates no reply bytes). -/
theorem c9_reply_iff_witness :
    ((MessageReceiver.apply ⟨false, 0, false, true, none, []⟩
        ⟨true, true, [], [], true, .Connected, 5, 0, false, 30000⟩
        [100] (fun b => b) [] (.stateless [3]) true 50).2.1.wsSent
      ≠ (⟨true, true, [], [], true, .Connected, 5, 0, false, 30000⟩ : WS).wsSent
      ↔ (MessageReceiver.handle ⟨false, 0, false, true, none, []⟩
          (writeVarStringBytes [] [100]) (fun b => b) [] (.stateless [3]) true 50).2.1.length
          > (writeVarStringBytes [] [100]).length + 1) :=
  (c9_reply_iff ⟨false, 0, false, true, none, []⟩
    ⟨true, true, [], [], true, .Connected, 5, 0, false, 30000⟩
    [100] (fun b => b) [] (.stateless [3]) true 50 rfl rfl rfl).1

/-! ### Staleness-eviction claim (C7) -/

theorem mem_of_mapGet {α : Type} (m : List (Nat × α)) (k : Nat) (v : α)
    (h : mapGet m k = some v) : (k, v) ∈ m := by
  induction m with
  | nil => simp [mapGet] at h
  | cons p rest ih =>
    obtain ⟨a, b⟩ := p
    rw [mapGet_cons] at h
    by_cases hp : a = k
    · rw [if_pos hp] at h
      injection h with hv
      subst hp
      subst hv
      exact List.mem_cons_self _ _
    · rw [if_neg hp] at h
      exact List.mem_cons_of_mem _ (ih h)

theorem removeAwarenessStep_has {St : Type} (now : Nat) (acc : RemoveAcc St)
    (k : Nat) (hk : mapHas acc.aw.states k = true) :
    (removeAwarenessStep now acc k).aw.states = mapDel acc.aw.states k ∧
    (removeAwarenessStep now acc k).removed = acc.removed ++ [k] := by
  rw [removeAwarenessStep, if_pos hk]
  exact ⟨rfl, rfl⟩

theorem removeAwarenessStep_nothas {St : Type} (now : Nat) (acc : RemoveAcc St)
    (k : Nat) (hk : ¬ mapHas acc.aw.states k = true) :
    removeAwarenessStep now acc k = acc := by
  rw [removeAwarenessStep, if_neg hk]

/-- Folding `removeAwarenessStep` over clients not containing `c`
leaves `c`'s state-presence and removal count untouched. -/
theorem removeFold_not_mem {St : Type} (now : Nat) (clients : List Nat) :
    ∀ (acc : RemoveAcc St) (c : Nat), c ∉ clients →
    mapHas (clients.foldl (removeAwarenessStep now) acc).aw.states c
        = mapHas acc.aw.states c ∧
    (clients.foldl (removeAwarenessStep now) acc).removed.count c
        = acc.removed.count c := by
  induction clients with
  | nil =>
    intro acc c _
    exact ⟨rfl, rfl⟩
  | cons k rest ih =>
    intro acc c h
    simp only [List.mem_cons, not_or] at h
    have hck : ¬ k = c := fun h' => h.1 h'.symm
    rw [List.foldl_cons]
    obtain ⟨h1, h2⟩ := ih (removeAwarenessStep now acc k) c h.2
    by_cases hk : mapHas acc.aw.states k = true
    · obtain ⟨e1, e2⟩ := removeAwarenessStep_has now acc k hk
      refine ⟨?_, ?_⟩
      · rw [h1]
        simp only [mapHas, e1]
        rw [mapGet_mapDel_ne acc.aw.states k c h.1]
      · rw [h2, e2]
        simp [List.count_append, List.count_cons, hck]
    · rw [removeAwarenessStep_nothas now acc k hk]
      exact ih acc c h.2

/-- Folding `removeAwarenessStep` over a duplicate-free client list
containing `c`, starting from a store that still has `c`'s state,
removes that state and pushes `c` to the removal list exactly once. -/
theorem removeFold_mem {St : Type} (now : Nat) (clients : List Nat) :
    ∀ (acc : RemoveAcc St) (c : Nat), clients.Nodup → c ∈ clients →
    mapHas acc.aw.states c = true → (acc.aw.states.map Prod.fst).Nodup →
    mapHas (clients.foldl (removeAwarenessStep now) acc).aw.states c = false ∧
    (clients.foldl (removeAwarenessStep now) acc).removed.count c
        = acc.removed.count c + 1 := by
  induction clients with
  | nil =>
    intro acc c _ h
    cases h
  | cons k rest ih =>
    intro acc c hnd hmem hhas hnds
    simp only [List.nodup_cons] at hnd
    rw [List.foldl_cons]
    by_cases hkc : k = c
    · subst hkc
      obtain ⟨e1, e2⟩ := removeAwarenessStep_has now acc k hhas
      obtain ⟨h1, h2⟩ := removeFold_not_mem now rest (removeAwarenessStep now acc k) k hnd.1
      refine ⟨?_, ?_⟩
      · rw [h1]
        simp only [mapHas, e1]
        rw [mapGet_mapDel_self acc.aw.states k hnds]
        rfl
      · rw [h2, e2]
        simp [List.count_append, List.count_cons]
    · have hmem' : c ∈ rest := by
        rcases List.mem_cons.mp hmem with h | h
        · exact absurd h.symm hkc
        · exact h
      by_cases hk : mapHas acc.aw.states k = true
      · obtain ⟨e1, e2⟩ := removeAwarenessStep_has now acc k hk
        have hhas' : mapHas (removeAwarenessStep now acc k).aw.states c = true := by
          simp only [mapHas, e1]
          rw [mapGet_mapDel_ne acc.aw.states k c (fun h' => hkc h'.symm)]
          exact hhas
        have hnds' : ((removeAwarenessStep now acc k).aw.states.map Prod.fst).Nodup := by
          rw [e1]
          exact nodup_keys_mapDel acc.aw.states k hnds
        obtain ⟨h1, h2⟩ := ih (removeAwarenessStep now acc k) c hnd.2 hmem' hhas' hnds'
        refine ⟨h1, ?_⟩
        rw [h2, e2]
        simp [List.count_append, List.count_cons, hkc]
      · rw [removeAwarenessStep_nothas now acc k hk]
        exact ih acc c hnd.2 hmem' hhas hnds

/-- `removeAwarenessStates` on a duplicate-free client list containing
`c` (whose state is present): `c`'s entry is gone afterwards and
exactly one `change` event lists `c` as removed. -/
theorem removeAwarenessStates_evicts {St : Type} (aw : Awareness St)
    (clients : List Nat) (now : Nat) (c : Nat)
    (hnd : clients.Nodup) (hmem : c ∈ clients)
    (hhas : mapHas aw.states c = true) (hnds : (aw.states.map Prod.fst).Nodup) :
    mapHas (removeAwarenessStates aw clients now).1.states c = false ∧
    (removeAwarenessStates aw clients now).2.countP (changeRemovedFor c) = 1 := by
  obtain ⟨h1, h2⟩ := removeFold_mem now clients ⟨aw, []⟩ c hnd hmem hhas hnds
  have hcount : (clients.foldl (removeAwarenessStep now) ⟨aw, []⟩).removed.count c = 1 := by
    rw [h2]
    rfl
  have hcm : c ∈ (clients.foldl (removeAwarenessStep now) ⟨aw, []⟩).removed :=
    List.count_pos_iff.mp (by omega)
  have hne : (clients.foldl (removeAwarenessStep now) ⟨aw, []⟩).removed ≠ [] :=
    List.ne_nil_of_mem hcm
  simp only [removeAwarenessStates]
  rw [if_pos hne]
  refine ⟨h1, ?_⟩
  simp [List.countP_cons, changeRemovedFor, hcm]

/-- Renewing the local entry (`setLocalState` with a non-null state)
does not touch any other client's entries, preserves key uniqueness,
and emits no event reporting any client as removed in a `change`. -/
theorem setLocalState_some_facts {St : Type} [DecidableEq St] (aw : Awareness St)
    (v : St) (now : Nat) (c : Nat) (hc : c ≠ aw.clientID) :
    (setLocalState aw (some v) now).1.clientID = aw.clientID ∧
    mapGet (setLocalState aw (some v) now).1.meta c = mapGet aw.meta c ∧
    mapGet (setLocalState aw (some v) now).1.states c = mapGet aw.states c ∧
    ((aw.meta.map Prod.fst).Nodup →
      ((setLocalState aw (some v) now).1.meta.map Prod.fst).Nodup) ∧
    ((aw.states.map Prod.fst).Nodup →
      ((setLocalState aw (some v) now).1.states.map Prod.fst).Nodup) ∧
    (setLocalState aw (some v) now).2.countP (changeRemovedFor c) = 0 := by
  refine ⟨rfl, ?_, ?_, ?_, ?_, ?_⟩
  · simp only [setLocalState]
    exact mapGet_mapSet_ne aw.meta aw.clientID c _ hc
  · simp only [setLocalState]
    exact mapGet_mapSet_ne aw.states aw.clientID c v hc
  · intro h
    simp only [setLocalState]
    exact nodup_keys_mapSet aw.meta aw.clientID _ h
  · intro h
    simp only [setLocalState]
    exact nodup_keys_mapSet aw.states aw.clientID v h
  · simp only [setLocalState]
    rw [List.countP_append, apply_ite (List.countP (changeRemovedFor c))]
    simp [changeRemovedFor, List.countP_cons]

/-- The eviction stage of the sweep, on the (possibly renewed) store
`aw1`: a non-local client `c` with its state present and its meta at
least `outdatedTimeout` old lands in the `remove` list, its entry is
evicted, and exactly one `change` event reports it removed. -/
theorem sweep_evicts {St : Type} [DecidableEq St] (aw1 : Awareness St)
    (now c cl lu : Nat)
    (hc : c ≠ aw1.clientID) (hmeta : mapGet aw1.meta c = some ⟨cl, lu⟩)
    (hhas : mapHas aw1.states c = true) (hstale : lu + outdatedTimeout ≤ now)
    (hndm : (aw1.meta.map Prod.fst).Nodup) (hnds : (aw1.states.map Prod.fst).Nodup) :
    mapHas (removeAwarenessStates aw1 (awarenessSweepRemove aw1 now) now).1.states c
        = false ∧
    (removeAwarenessStates aw1 (awarenessSweepRemove aw1 now) now).2.countP
        (changeRemovedFor c) = 1 ∧
    awarenessSweepRemove aw1 now ≠ [] := by
  have hpmem : (c, (⟨cl, lu⟩ : MetaClientState)) ∈ aw1.meta := mem_of_mapGet _ _ _ hmeta
  have hpred : (fun p : Nat × MetaClientState =>
      decide (p.1 ≠ aw1.clientID ∧ outdatedTimeout ≤ now - p.2.lastUpdated ∧
        mapHas aw1.states p.1)) (c, ⟨cl, lu⟩) = true := by
    simp only [decide_eq_true_eq]
    exact ⟨hc, by omega, hhas⟩
  have hcm : c ∈ awarenessSweepRemove aw1 now := by
    rw [awarenessSweepRemove]
    exact List.mem_map.mpr ⟨(c, ⟨cl, lu⟩), List.mem_filter.mpr ⟨hpmem, hpred⟩, rfl⟩
  have hsub : (awarenessSweepRemove aw1 now).Sublist (aw1.meta.map Prod.fst) := by
    rw [awarenessSweepRemove]
    exact (List.filter_sublist _).map Prod.fst
  have hnd := hndm.sublist hsub
  obtain ⟨h1, h2⟩ := removeAwarenessStates_evicts aw1 _ now c hnd hcm hhas hnds
  exact ⟨h1, h2, List.ne_nil_of_mem hcm⟩

/-- C7: every non-local awareness entry whose `lastUpdated` is more
than `outdatedTimeout` in the past when the periodic sweep runs is
removed from the store by that sweep, and exactly one `change`
notification of that sweep lists the client id as removed. -/
theorem c7_staleness_eviction {St : Type} [DecidableEq St] (aw : Awareness St)
    (c cl lu now : Nat)
    (hc : c ≠ aw.clientID)
    (hmeta : mapGet aw.meta c = some ⟨cl, lu⟩)
    (hhas : mapHas aw.states c = true)
    (hstale : lu + outdatedTimeout < now)
    (hndm : (aw.meta.map Prod.fst).Nodup)
    (hnds : (aw.states.map Prod.fst).Nodup) :
    mapHas (awarenessCheck aw now).1.states c = false ∧
    (awarenessCheck aw now).2.countP (changeRemovedFor c) = 1 := by
  by_cases hrenew : ((getLocalState aw).isSome = true ∧
      ((mapGet aw.meta aw.clientID).any
        fun m => decide (outdatedTimeout / 2 ≤ now - m.lastUpdated)) = true)
  · obtain ⟨v, hv⟩ := Option.isSome_iff_exists.mp hrenew.1
    have hr : awarenessRenew aw now = setLocalState aw (some v) now := by
      rw [awarenessRenew, if_pos hrenew, hv]
    obtain ⟨f1, f2, f3, f4, f5, f6⟩ := setLocalState_some_facts aw v now c hc
    have hc' : c ≠ (setLocalState aw (some v) now).1.clientID := by
      rw [f1]
      exact hc
    have hmeta' : mapGet (setLocalState aw (some v) now).1.meta c = some ⟨cl, lu⟩ := by
      rw [f2]
      exact hmeta
    have hhas' : mapHas (setLocalState aw (some v) now).1.states c = true := by
      rw [mapHas, f3]
      exact hhas
    obtain ⟨h1, h2, h3⟩ := sweep_evicts (setLocalState aw (some v) now).1 now c cl lu
      hc' hmeta' hhas' (by omega) (f4 hndm) (f5 hnds)
    simp only [awarenessCheck, hr]
    rw [if_pos h3]
    refine ⟨h1, ?_⟩
    rw [List.countP_append, f6, h2]
  · have hr : awarenessRenew aw now = (aw, []) := by
      rw [awarenessRenew, if_neg hrenew]
    obtain ⟨h1, h2, h3⟩ := sweep_evicts aw now c cl lu hc hmeta hhas (by omega) hndm hnds
    simp only [awarenessCheck, hr]
    rw [if_pos h3]
    refine ⟨h1, ?_⟩
    rw [List.nil_append, h2]

/-- Witness for C7: local client `0` (fresh), stale non-local client
`7` last updated at time 50000, swept at time 100000. -/
theorem c7_staleness_eviction_witness :
    mapHas (awarenessCheck (⟨0, [(0, 10), (7, 5)], [(0, ⟨0, 99000⟩), (7, ⟨3, 50000⟩)]⟩ : Awareness Nat) 100000).1.states 7
      = false ∧
    (awarenessCheck (⟨0, [(0, 10), (7, 5)], [(0, ⟨0, 99000⟩), (7, ⟨3, 50000⟩)]⟩ : Awareness Nat) 100000).2.countP
        (changeRemovedFor 7) = 1 :=
  c7_staleness_eviction ⟨0, [(0, 10), (7, 5)], [(0, ⟨0, 99000⟩), (7, ⟨3, 50000⟩)]⟩
    7 3 50000 100000 (by decide) (by decide) (by decide) (by decide) (by decide) (by decide)

end Hocuspocus
